import Mathlib

/-!
Verification development for the `agent_example` repository: a shallow
embedding of the authored control logic (workflow routing, onboarding,
graph wiring, the JSON-backed employee profile store, the retrieval tool's
formatting, the console quit loop, and memory clearing), with theorems
settling the specification's claims about it.

External collaborators (the LLM, the vector store, the file system, the
JSON codec, the graph-execution engine) are modelled by explicit
parameters: a file's content and its JSON parse result are passed in as
data, the model's reply is passed in as a message, and the graph is
represented by the node and edge lists the code registers.
-/

namespace AgentExample

/-- Message roles as used by the chat framework: `system`, `human`,
`ai` (assistant) and `tool`. -/
inductive Role where
  | system
  | human
  | ai
  | tool
deriving DecidableEq, Repr

/-- A chat message: a role, text content and — meaningful only for
assistant messages, which are the only class defining the attribute —
a list of pending tool-call names.  Mirrors the framework's message
objects as used by `workflow_manager.py`. -/
structure Message where
  role : Role
  content : String
  tool_calls : List String
deriving DecidableEq, Repr

/-- Only assistant (`AIMessage`) objects define a `tool_calls` attribute;
this models Python's `hasattr(last_message, "tool_calls")`. -/
def hasToolCallsAttr (m : Message) : Bool :=
  m.role = Role.ai

/-- `WorkflowManager._agent_router` (workflow_manager.py:250-254):
inspects the last element of `state["messages"]`; returns `"tools"` when
it has a truthy `tool_calls` attribute and `"end"` otherwise.  `none`
models the `IndexError` raised by `[-1]` on an empty history. -/
def agent_router (msgs : List Message) : Option String :=
  match msgs.getLast? with
  | none => none
  | some last =>
      some (if hasToolCallsAttr last && !last.tool_calls.isEmpty then "tools" else "end")

/-- `WorkflowManager._login_router` (workflow_manager.py:243-248): the
state argument is ignored; only the two session flags decide. -/
def login_router (is_logged_in is_new_user : Bool) (_state : List Message) : String :=
  if !is_logged_in then "login"
  else if is_new_user then "onboarding"
  else "model"

/-- The synthesized follow-up `HumanMessage` built at the end of
`WorkflowManager._onboarding` (workflow_manager.py:237-239). -/
def welcome_request (name username role department : String) : Message :=
  { role := Role.human
    content := "Onboarding complete! " ++ name ++ " (username: " ++ username ++
      ", role: " ++ role ++ ", department: " ++ department ++
      ") has just joined the team. Welcome them warmly and offer to help them get started with their development environment."
    tool_calls := [] }

/-- The message delta returned by `WorkflowManager._onboarding`
(workflow_manager.py:241): the agent's response followed by the
synthesized welcome request. -/
def onboarding_update (response : Message) (name username role department : String) :
    List Message :=
  [response, welcome_request name username role department]

/-- The `MessagesState` reducer: a node's returned messages are appended
to the stored history. -/
def apply_messages (prior delta : List Message) : List Message :=
  prior ++ delta

/-- The graph entry sentinel (`START`). -/
def startNode : String := "__start__"

/-- The graph exit sentinel (`END`). -/
def endNode : String := "__end__"

/-- `WorkflowManager._define_nodes` (workflow_manager.py:119-125): the
node names registered on the graph; `tools`, `login` and `onboarding`
are added only when the agent has tools. -/
def define_nodes (agent_has_tools : Bool) : List String :=
  ["model"] ++ (if agent_has_tools then ["tools", "login", "onboarding"] else [])

/-- `WorkflowManager._add_edges` (workflow_manager.py:127-163): every
directed edge registered on the graph, conditional-edge targets
included.  The `START → login` edge and the three login-router targets
are added unconditionally; only the block after them branches on
`agent_has_tools`. -/
def add_edges (agent_has_tools : Bool) : List (String × String) :=
  [(startNode, "login"),
   ("login", "login"), ("login", "onboarding"), ("login", "model")] ++
  (if agent_has_tools then
    [("onboarding", "tools"), ("onboarding", "model"),
     ("model", "tools"), ("model", endNode),
     ("tools", "model")]
  else
    [("onboarding", "model"), ("model", endNode)])

/-- A concrete assistant response carrying a pending
`create_employee_profile` tool call, as the onboarding prompt instructs
the model to produce. -/
def onboardResponse : Message :=
  { role := Role.ai
    content := ""
    tool_calls := ["create_employee_profile"] }

/-- A record of the employee profile store: the JSON object stored under
an employee-name key in `data/employee_db.json`. -/
structure EmployeeRecord where
  username : String
  role : String
  department : String
deriving DecidableEq, Repr

/-- The profile store as parsed from JSON: an ordered association of
employee display names to records (a JSON object cannot repeat a key,
so well-formed stores have no duplicate keys). -/
abbrev Store := List (String × EmployeeRecord)

/-- The state of the profile-store file as seen by one open/read: either
the file is missing (`open` raises `FileNotFoundError`) or it holds raw
text `raw` whose JSON parse result is `parsed` (`none` models a
`JSONDecodeError` from `json.load`/`json.loads`). -/
inductive FileContent where
  | missing
  | present (raw : String) (parsed : Option Store)

/-- Python `dict.get`: the value under key `k`, scanning in order. -/
def getKey (db : Store) (k : String) : Option EmployeeRecord :=
  (db.find? (fun p => p.1 == k)).map Prod.snd

/-- Python `employee_db[employee_name] = {...}`: replace the record under
an existing key in place, else append a new entry (dict insertion
order). -/
def setKey (db : Store) (k : String) (v : EmployeeRecord) : Store :=
  if db.any (fun p => p.1 == k) then
    db.map (fun p => if p.1 == k then (k, v) else p)
  else
    db ++ [(k, v)]

/-- Python `repr` of a record's dict, as interpolated by the f-string in
the found branch of `employee_lookup`. -/
def pyDictRepr (r : EmployeeRecord) : String :=
  "\x7b'username': '" ++ r.username ++ "', 'role': '" ++ r.role ++
    "', 'department': '" ++ r.department ++ "'\x7d"

/-- Python `str.strip()`: drop leading and trailing whitespace. -/
def pyStrip (s : String) : String :=
  String.mk (((s.toList.dropWhile Char.isWhitespace).reverse.dropWhile
    Char.isWhitespace).reverse)

/-- The `try`/`except FileNotFoundError` read at the top of
`create_employee_profile` (tool_manager.py:108-114): a missing file and
content that strips to the empty string both yield an empty store; any
other content goes through `json.loads`, whose `JSONDecodeError`
propagates uncaught. -/
def read_employee_db (fc : FileContent) : Except String Store :=
  match fc with
  | FileContent.missing => Except.ok []
  | FileContent.present raw parsed =>
      if pyStrip raw = "" then Except.ok []
      else
        match parsed with
        | none => Except.error "JSONDecodeError"
        | some db => Except.ok db

/-- The confirmation string returned by `create_employee_profile`
(tool_manager.py:127; the source file carries the mojibake check mark
verbatim). -/
def confirm_msg (username employee_name role department : String) : String :=
  "âœ“ Created profile for " ++ username ++ ": " ++ employee_name ++
    ", Role: " ++ role ++ ", Department: " ++ department ++ "."

/-- The `create_employee_profile` tool (tool_manager.py:92-129): read the
store (see `read_employee_db`), upsert the record under the employee
name, rewrite the whole store and return the confirmation string.  The
result pairs the written store with the returned message. -/
def create_employee_profile (fc : FileContent) (username employee_name role department : String) :
    Except String (Store × String) :=
  (read_employee_db fc).map (fun db =>
    (setKey db employee_name
        { username := username, role := role, department := department },
      confirm_msg username employee_name role department))

/-- The `employee_lookup` tool (tool_manager.py:72-90): `open` raises on
a missing file, `json.load` raises on malformed content (neither is
caught); a present record is reported with the dict interpolated, an
absent one with the literal fallback. -/
def employee_lookup (fc : FileContent) (employee_name : String) : Except String String :=
  match fc with
  | FileContent.missing => Except.error "FileNotFoundError"
  | FileContent.present _ parsed =>
      match parsed with
      | none => Except.error "JSONDecodeError"
      | some db =>
          match getKey db employee_name with
          | some info => Except.ok (employee_name ++ " is a " ++ pyDictRepr info ++ ".")
          | none => Except.ok ("No information found for employee: " ++ employee_name ++ ".")

/-- The profile-store read inside `WorkflowManager._login`
(workflow_manager.py:179-183): `open` raises on a missing file, but
`json.JSONDecodeError` is caught and the store treated as empty. -/
def login_load_db (fc : FileContent) : Except String Store :=
  match fc with
  | FileContent.missing => Except.error "FileNotFoundError"
  | FileContent.present _ parsed => Except.ok (parsed.getD [])

/-- Approximate token total of a message list under an external counting
function `c` (the framework's `count_tokens_approximately`). -/
def tokenTotal (c : Message → Nat) (msgs : List Message) : Nat :=
  (msgs.map c).sum

/-- Modelled from the spec: the message-trimming utility configured by
`WorkflowManager.trimmer` (workflow_manager.py:54-65) is the external
framework's `trim_messages` and its algorithm is not part of this
repository; §4.2 gives its contract for the configured options
(`strategy="last"`, `allow_partial=False`, `start_on="human"`).  This
walks forward dropping messages until the remaining suffix starts on a
human message and fits the budget — i.e. it returns the longest such
suffix, whole messages only. -/
def keepSuffix (c : Message → Nat) (budget : Nat) : List Message → List Message
  | [] => []
  | m :: tl =>
      if m.role = Role.human ∧ tokenTotal c (m :: tl) ≤ budget then m :: tl
      else keepSuffix c budget tl

/-- Modelled from the spec: the full trimming policy of
`WorkflowManager.trimmer` with `include_system=True` — a system message
at index 0 is always kept (its tokens charged against the budget) and
the rest is the longest whole-message suffix starting on a human
message that fits the remaining budget. -/
def trim_messages (c : Message → Nat) (max_tokens : Nat) (msgs : List Message) :
    List Message :=
  match msgs with
  | [] => []
  | m :: tl =>
      if m.role = Role.system then m :: keepSuffix c (max_tokens - c m) tl
      else keepSuffix c max_tokens msgs

/-- A retrieved document as returned by the vector-store search: its text
and its `source` metadata (a file path). -/
structure Doc where
  page_content : String
  source : String
deriving DecidableEq, Repr

/-- `source.split("/")[-1] if "/" in source else source`
(tool_manager.py:59): the filename component of the source path. -/
def filenameOf (source : String) : String :=
  if source.contains '/' then (source.splitOn "/").getLastD source else source

/-- The per-snippet truncation in `retrieve_context`
(tool_manager.py:61-65): content longer than 500 characters is cut to
its first 500 characters with `"..."` appended; shorter content is kept
whole. -/
def truncateContent (s : String) : String :=
  if s.length > 500 then String.mk (s.toList.take 500) ++ "..." else s

/-- One formatted context part (tool_manager.py:66): the source filename
header followed by the (possibly truncated) content. -/
def formatDoc (d : Doc) : String :=
  "[From " ++ filenameOf d.source ++ "]\n" ++ truncateContent d.page_content

/-- The `retrieve_context` tool body (tool_manager.py:36-68), applied to
the documents the external search returned: the fixed not-found message
on an empty result list, else the formatted parts joined by blank
lines. -/
def retrieve_context (retrieved_docs : List Doc) : String :=
  if retrieved_docs.isEmpty then "No relevant information found in the knowledge base."
  else String.intercalate "\n\n" (retrieved_docs.map formatDoc)

/-- `RAGManager._load_markdown_documents` (rag_manager.py:104-115): the
glob results when the knowledge directory exists, the empty list when it
does not (and a glob over an empty directory is itself empty). -/
def load_markdown_documents (dirExists : Bool) (mdFiles : List Doc) : List Doc :=
  if dirExists then mdFiles else []

/-- `RAGManager.documents` (rag_manager.py:76-82): the markdown documents
followed by the extra files. -/
def rag_documents (dirExists : Bool) (mdFiles extraDocs : List Doc) : List Doc :=
  load_markdown_documents dirExists mdFiles ++ extraDocs

/-- Python `str.lower()`: lowercase the string character by character. -/
def pyLower (s : String) : String :=
  String.mk (s.toList.map Char.toLower)

/-- `App._do_quit` (app.py:111-114): `user_input.lower() in {"exit", "quit"}`. -/
def do_quit (user_input : String) : Bool :=
  pyLower user_input = "exit" || pyLower user_input = "quit"

/-- The observable state of the console run loop: whether the loop keeps
running and which user turns have been streamed to the model. -/
structure AppState where
  is_running : Bool
  streamed : List String
deriving DecidableEq, Repr

/-- `App._handle_request` (app.py:116-120): a quit input calls
`self.quit()` (clearing `is_running`) and returns without streaming; any
other input is streamed as a normal user turn. -/
def handle_request (st : AppState) (user_input : String) : AppState :=
  if do_quit user_input then { st with is_running := false }
  else { st with streamed := st.streamed ++ [user_input] }

/-- The `User` dataclass (workflow_manager.py:15-20). -/
structure User where
  username : String
  name : String
  role : String
  department : String
deriving DecidableEq, Repr

/-- The mutable state of a `WorkflowManager` relevant to memory and
routing: the checkpoint store (thread id → stored conversation), the
cached compiled graph, and the session fields. -/
structure WMState where
  memory : String → List Message
  compiled_cached : Bool
  is_logged_in : Bool
  is_new_user : Bool
  user : Option User

/-- `WorkflowManager.clear_memory` (workflow_manager.py:100-103): replace
the checkpoint store with a fresh empty one and drop the cached compiled
graph; nothing else is assigned. -/
def clear_memory (st : WMState) : WMState :=
  { st with memory := fun _ => [], compiled_cached := false }

/-- A concrete system message, for instantiating the trimming theorems. -/
def sysMsgEx : Message :=
  { role := Role.system, content := "You are a helpful assistant.", tool_calls := [] }

/-- A concrete human message, for instantiating the trimming theorems. -/
def humanMsgEx : Message :=
  { role := Role.human, content := "Hello", tool_calls := [] }

/-- A concrete employee record, for instantiating the store theorems. -/
def recJane : EmployeeRecord :=
  { username := "admin", role := "Engineer", department := "Platform" }

/-- A concrete one-record store, for instantiating the store theorems. -/
def storeJane : Store := [("Jane Doe", recJane)]

/-- A concrete logged-in, non-new workflow state, for instantiating the
memory theorems. -/
def wmEx : WMState :=
  { memory := fun _ => [humanMsgEx], compiled_cached := true,
    is_logged_in := true, is_new_user := false, user := none }

/-- A concrete retrieved document, for instantiating the retrieval
theorems. -/
def docEx : Doc :=
  { page_content := "LangChain is a framework", source := "docs/kb/test.md" }

end AgentExample

namespace AgentExample

/-! ### Helper lemmas about the store operations -/

theorem setKey_cons_ne (a : String × EmployeeRecord) (tl : Store) (k : String)
    (v : EmployeeRecord) (h : ¬ a.1 = k) :
    setKey (a :: tl) k v = a :: setKey tl k v := by
  have hb : (a.1 == k) = false := by simp [h]
  by_cases htl : tl.any (fun p => p.1 == k) = true
  · simp [setKey, hb, htl, h]
  · simp [setKey, hb, htl, h]

theorem replace_map_eq_of_not_mem (tl : Store) (k : String) (v : EmployeeRecord)
    (h : ¬ k ∈ tl.map Prod.fst) :
    tl.map (fun p => if p.1 = k then (k, v) else p) = tl := by
  induction tl with
  | nil => rfl
  | cons a tl ih =>
      simp only [List.map_cons, List.mem_cons, not_or] at h
      have ha : ¬ a.1 = k := fun hh => h.1 hh.symm
      simp only [List.map_cons, if_neg ha, ih h.2]

theorem setKey_cons_eq (b : EmployeeRecord) (tl : Store) (k : String) (v : EmployeeRecord)
    (h : ¬ k ∈ tl.map Prod.fst) :
    setKey ((k, b) :: tl) k v = (k, v) :: tl := by
  simp [setKey, replace_map_eq_of_not_mem tl k v h]

theorem getKey_setKey_self (db : Store) (k : String) (v : EmployeeRecord) :
    getKey (setKey db k v) k = some v := by
  induction db with
  | nil => simp [setKey, getKey]
  | cons a tl ih =>
      by_cases h : a.1 = k
      · obtain ⟨a1, b⟩ := a
        simp only at h
        subst h
        simp [setKey, getKey, List.find?]
      · rw [setKey_cons_ne a tl k v h]
        have hb : (a.1 == k) = false := by simp [h]
        simpa [getKey, List.find?, hb] using ih

theorem getKey_setKey_ne (db : Store) (k : String) (v : EmployeeRecord) (q : String)
    (hnd : (db.map Prod.fst).Nodup) (h : ¬ q = k) :
    getKey (setKey db k v) q = getKey db q := by
  induction db with
  | nil =>
      have hb : (k == q) = false := by simp; exact fun hh => h hh.symm
      simp [setKey, getKey, List.find?, hb]
  | cons a tl ih =>
      obtain ⟨a1, b⟩ := a
      simp only [List.map_cons, List.nodup_cons] at hnd
      by_cases ha : a1 = k
      · subst ha
        rw [setKey_cons_eq b tl a1 v hnd.1]
        have hb : (a1 == q) = false := by simp; exact fun hh => h hh.symm
        simp [getKey, List.find?, hb]
      · rw [setKey_cons_ne (a1, b) tl k v ha]
        by_cases hq : a1 = q
        · subst hq
          simp [getKey, List.find?]
        · have hb : (a1 == q) = false := by simp [hq]
          simpa [getKey, List.find?, hb] using ih hnd.2

theorem countP_key_eq_zero (tl : Store) (k : String) (h : ¬ k ∈ tl.map Prod.fst) :
    tl.countP (fun p => p.1 == k) = 0 := by
  rw [List.countP_eq_zero]
  intro p hp
  simp only [beq_iff_eq]
  intro hpk
  exact h (List.mem_map.mpr ⟨p, hp, hpk⟩)

theorem countP_setKey (db : Store) (k : String) (v : EmployeeRecord)
    (hnd : (db.map Prod.fst).Nodup) :
    (setKey db k v).countP (fun p => p.1 == k) = 1 := by
  induction db with
  | nil => simp [setKey, List.countP_cons]
  | cons a tl ih =>
      obtain ⟨a1, b⟩ := a
      simp only [List.map_cons, List.nodup_cons] at hnd
      by_cases ha : a1 = k
      · subst ha
        rw [setKey_cons_eq b tl a1 v hnd.1]
        simp [List.countP_cons, countP_key_eq_zero tl a1 hnd.1]
      · rw [setKey_cons_ne (a1, b) tl k v ha]
        have hb : (a1 == k) = false := by simp [ha]
        simp [List.countP_cons, hb, ih hnd.2]

theorem keys_map_replace (db : Store) (k : String) (v : EmployeeRecord) :
    (db.map (fun p => if p.1 == k then (k, v) else p)).map Prod.fst = db.map Prod.fst := by
  rw [List.map_map]
  refine List.map_congr_left (fun p _ => ?_)
  by_cases hp : p.1 = k
  · simp [hp]
  · simp [hp]

theorem nodup_keys_setKey (db : Store) (k : String) (v : EmployeeRecord)
    (hnd : (db.map Prod.fst).Nodup) :
    ((setKey db k v).map Prod.fst).Nodup := by
  unfold setKey
  split
  · rw [keys_map_replace]
    exact hnd
  · rename_i hany
    rw [List.map_append]
    rw [List.nodup_append]
    refine ⟨hnd, List.nodup_singleton k, ?_⟩
    intro x hx hk
    simp only [List.map_cons, List.map_nil, List.mem_singleton] at hk
    subst hk
    obtain ⟨p, hp, hpk⟩ := List.mem_map.mp hx
    exact hany (List.any_eq_true.mpr ⟨p, hp, by simp [hpk]⟩)

/-! ### Helper lemmas about trimming and truncation -/

theorem keepSuffix_sublist (c : Message → Nat) (b : Nat) (l : List Message) :
    (keepSuffix c b l).Sublist l := by
  induction l with
  | nil => simp [keepSuffix]
  | cons m tl ih =>
      rw [keepSuffix]
      split
      · exact List.Sublist.refl _
      · exact ih.trans (List.sublist_cons_self m tl)

theorem keepSuffix_head_human (c : Message → Nat) (b : Nat) (l : List Message) :
    ∀ m ms, keepSuffix c b l = m :: ms → m.role = Role.human := by
  induction l with
  | nil => intro m ms h; simp [keepSuffix] at h
  | cons x tl ih =>
      intro m ms h
      rw [keepSuffix] at h
      split at h
      · rename_i hcond
        injection h with h1 h2
        subst h1
        exact hcond.1
      · exact ih m ms h

theorem keepSuffix_dropWhile_head (c : Message → Nat) (b : Nat) (l : List Message) :
    ∀ m, ((keepSuffix c b l).dropWhile (fun x => x.role == Role.system)).head? = some m →
      m.role = Role.human := by
  intro m hm
  cases hks : keepSuffix c b l with
  | nil => rw [hks] at hm; simp [List.dropWhile] at hm
  | cons h rest =>
      have hh : h.role = Role.human := keepSuffix_head_human c b l h rest hks
      rw [hks, List.dropWhile_cons, hh] at hm
      simp only [show (Role.human == Role.system) = false from rfl, Bool.false_eq_true,
        if_false, List.head?_cons, Option.some.injEq] at hm
      rw [← hm]
      exact hh

theorem truncateContent_length_le (s : String) : (truncateContent s).length ≤ 503 := by
  unfold truncateContent
  split
  · rename_i hgt
    rw [String.length_append]
    have h1 : (String.mk (s.toList.take 500)).length = 500 := by
      show (s.toList.take 500).length = 500
      rw [List.length_take]
      have : 500 ≤ s.toList.length := le_of_lt hgt
      omega
    rw [h1, show ("..." : String).length = 3 from rfl]
  · rename_i hle
    push_neg at hle
    omega

end AgentExample

namespace AgentExample

/-! ### Claim theorems -/

/-- Claim C4: the router after the login step returns `"login"` when the
session is not logged in, `"onboarding"` when logged in and the user is
new, and `"model"` when logged in and not new; the decision is
independent of the message history. -/
theorem login_router_cases (l n : Bool) (s t : List Message) :
    (l = false → login_router l n s = "login") ∧
    (l = true → n = true → login_router l n s = "onboarding") ∧
    (l = true → n = false → login_router l n s = "model") ∧
    login_router l n s = login_router l n t := by
  cases l <;> cases n <;> simp [login_router]

/-- Witness for `login_router_cases` at a concrete flag pair. -/
theorem login_router_cases_witness :
    login_router true false [humanMsgEx] = "model" :=
  (login_router_cases true false [humanMsgEx] []).2.2.1 rfl rfl

/-- Claim C7: looking up a name absent from a well-formed store returns
exactly the literal fallback string with the queried name substituted. -/
theorem employee_lookup_not_found (raw : String) (db : Store) (nm : String)
    (h : getKey db nm = none) :
    employee_lookup (FileContent.present raw (some db)) nm =
      Except.ok ("No information found for employee: " ++ nm ++ ".") := by
  simp [employee_lookup, h]

/-- Witness for `employee_lookup_not_found` on a one-record store. -/
theorem employee_lookup_not_found_witness :
    employee_lookup (FileContent.present "x" (some storeJane)) "Bob" =
      Except.ok ("No information found for employee: " ++ "Bob" ++ ".") :=
  employee_lookup_not_found "x" storeJane "Bob" (by decide)

/-- Claim C9: a turn of the run loop stops the loop and streams nothing
exactly when the input lowercases to `"exit"` or `"quit"`; every other
input is streamed as a normal user turn. -/
theorem quit_loop_spec (st : AppState) (inp : String) (h : st.is_running = true) :
    ((handle_request st inp).is_running = false ∧
      (handle_request st inp).streamed = st.streamed) ↔
    (pyLower inp = "exit" ∨ pyLower inp = "quit") := by
  by_cases hq : pyLower inp = "exit" ∨ pyLower inp = "quit"
  · have hd : do_quit inp = true := by
      rcases hq with hq | hq <;> simp [do_quit, hq]
    simp [handle_request, hd, hq]
  · have hd : do_quit inp = false := by
      push_neg at hq
      simp [do_quit, hq.1, hq.2]
    simp [handle_request, hd, hq, h]

/-- Witness for `quit_loop_spec`: the input `"QUIT"` stops the loop. -/
theorem quit_loop_spec_witness :
    (handle_request { is_running := true, streamed := [] } "QUIT").is_running = false ∧
    (handle_request { is_running := true, streamed := [] } "QUIT").streamed =
      ([] : List String) :=
  (quit_loop_spec { is_running := true, streamed := [] } "QUIT" rfl).mpr
    (Or.inr (by decide))

/-- Claim C10: clearing memory empties the stored conversation of every
thread and leaves the session fields untouched, so a logged-in, non-new
session still routes to `"model"`. -/
theorem clear_memory_frame (st : WMState) (tid : String) (s : List Message)
    (hl : st.is_logged_in = true) (hn : st.is_new_user = false) :
    (clear_memory st).memory tid = [] ∧
    (clear_memory st).is_logged_in = st.is_logged_in ∧
    (clear_memory st).is_new_user = st.is_new_user ∧
    (clear_memory st).user = st.user ∧
    login_router (clear_memory st).is_logged_in (clear_memory st).is_new_user s = "model" := by
  refine ⟨rfl, rfl, rfl, rfl, ?_⟩
  simp [clear_memory, login_router, hl, hn]

/-- Witness for `clear_memory_frame` on a concrete logged-in state. -/
theorem clear_memory_frame_witness :
    (clear_memory wmEx).memory "default" = [] ∧
    (clear_memory wmEx).is_logged_in = true ∧
    (clear_memory wmEx).is_new_user = false ∧
    (clear_memory wmEx).user = none ∧
    login_router (clear_memory wmEx).is_logged_in (clear_memory wmEx).is_new_user
      [humanMsgEx] = "model" :=
  clear_memory_frame wmEx "default" [humanMsgEx] rfl rfl

/-- Claim C1 (code bug): the router after `model`/`onboarding` inspects
only the last stored message.  After the onboarding step the last
message is the synthesized human welcome request, so a pending tool
call on the assistant response routes to `"end"` (and on to the model),
not to `"tools"` as the claim and the code's own comments state — while
after a model step, where the assistant response itself is last, the
same tool call does route to `"tools"`. -/
theorem onboarding_welcome_masks_toolcalls :
    agent_router (apply_messages []
      (onboarding_update onboardResponse "Jane Doe" "admin" "Engineer" "Platform")) =
        some "end" ∧
    agent_router (apply_messages [] [onboardResponse]) = some "tools" := by
  constructor <;> rfl

/-- Claim C2 (code bug): with a tool-less agent the code still registers
only the `model` node, yet unconditionally wires the entry edge to
`login`, the login-router edges, and `onboarding → model` — so the graph
references nodes that were never added and there is no direct
entry-to-model wiring. -/
theorem toolless_graph_still_wires_login :
    define_nodes false = ["model"] ∧
    (startNode, "login") ∈ add_edges false ∧
    ¬ (startNode, "model") ∈ add_edges false ∧
    ("onboarding", "model") ∈ add_edges false ∧
    ¬ "login" ∈ define_nodes false ∧
    ¬ "onboarding" ∈ define_nodes false := by
  refine ⟨rfl, ?_, ?_, ?_, ?_, ?_⟩ <;> decide

/-- Claim C3 counterexample: on non-empty content that is not valid JSON
the profile-write tool raises (only a missing file or empty content is
treated as an empty store), while the login step's profile load treats
the store as empty instead of raising. -/
theorem malformed_store_claim_cex :
    ¬ pyStrip "not json" = "" ∧
    create_employee_profile (FileContent.present "not json" none) "admin" "Jane Doe"
      "Engineer" "Platform" = Except.error "JSONDecodeError" ∧
    login_load_db (FileContent.present "not json" none) = Except.ok [] := by
  refine ⟨by decide, ?_, rfl⟩
  simp [create_employee_profile, read_employee_db, Except.map,
    show ¬ pyStrip "not json" = "" from by decide]

/-- Claim C3 amended: for every profile-store file whose content is
non-empty after stripping but not valid JSON, the write tool and
`employee_lookup` both raise, and the login step's profile load silently
treats the store as empty. -/
theorem malformed_store_paths (raw : String) (hraw : ¬ pyStrip raw = "")
    (u n r d q : String) :
    create_employee_profile (FileContent.present raw none) u n r d =
      Except.error "JSONDecodeError" ∧
    employee_lookup (FileContent.present raw none) q = Except.error "JSONDecodeError" ∧
    login_load_db (FileContent.present raw none) = Except.ok [] := by
  refine ⟨?_, rfl, rfl⟩
  simp [create_employee_profile, read_employee_db, Except.map, hraw]

/-- Witness for `malformed_store_paths` on the content `"not json"`. -/
theorem malformed_store_paths_witness :
    create_employee_profile (FileContent.present "not json" none) "bob" "Bob Smith"
      "Designer" "UX" = Except.error "JSONDecodeError" ∧
    employee_lookup (FileContent.present "not json" none) "Bob Smith" =
      Except.error "JSONDecodeError" ∧
    login_load_db (FileContent.present "not json" none) = Except.ok [] :=
  malformed_store_paths "not json" (by decide) "bob" "Bob Smith" "Designer" "UX" "Bob Smith"

/-- Claim C5 (modelled from the spec, §4.2): for every history and budget
the trimmed sequence is a whole-message subsequence of the history, a
leading system message is always retained, and the first retained
non-system entry is human-authored (or nothing follows the system
message). -/
theorem trimmer_invariants (c : Message → Nat) (mt : Nat) (msgs : List Message) :
    (trim_messages c mt msgs).Sublist msgs ∧
    (∀ m, msgs.head? = some m → m.role = Role.system →
      (trim_messages c mt msgs).head? = some m) ∧
    (∀ m, ((trim_messages c mt msgs).dropWhile (fun x => x.role == Role.system)).head? =
        some m → m.role = Role.human) := by
  cases msgs with
  | nil => simp [trim_messages]
  | cons x tl =>
      by_cases hx : x.role = Role.system
      · simp only [trim_messages, if_pos hx]
        refine ⟨List.Sublist.cons₂ x (keepSuffix_sublist c (mt - c x) tl), ?_, ?_⟩
        · intro m hm _
          simpa using hm
        · intro m hm
          rw [List.dropWhile_cons, hx] at hm
          simp only [show (Role.system == Role.system) = true from rfl, if_true] at hm
          exact keepSuffix_dropWhile_head c (mt - c x) tl m hm
      · simp only [trim_messages, if_neg hx]
        refine ⟨keepSuffix_sublist c mt (x :: tl), ?_,
          keepSuffix_dropWhile_head c mt (x :: tl)⟩
        intro m hm hrole
        simp only [List.head?_cons, Option.some.injEq] at hm
        exact absurd (hm ▸ hrole) hx

/-- Witness for `trimmer_invariants`: with unit costs and budget 5 the
leading system message survives trimming. -/
theorem trimmer_invariants_witness :
    (trim_messages (fun _ => 1) 5 [sysMsgEx, humanMsgEx]).head? = some sysMsgEx :=
  (trimmer_invariants (fun _ => 1) 5 [sysMsgEx, humanMsgEx]).2.1 sysMsgEx rfl rfl

/-- Claim C6: writing the same profile twice yields a store with exactly
one record under that employee name holding the latest values, and
every other name maps to the record it had before both writes. -/
theorem create_profile_idempotent (db : Store) (raw1 raw2 u n r d : String)
    (hnd : (db.map Prod.fst).Nodup)
    (h1 : ¬ pyStrip raw1 = "") (h2 : ¬ pyStrip raw2 = "") :
    ∃ db1 msg1 db2 msg2,
      create_employee_profile (FileContent.present raw1 (some db)) u n r d =
        Except.ok (db1, msg1) ∧
      create_employee_profile (FileContent.present raw2 (some db1)) u n r d =
        Except.ok (db2, msg2) ∧
      db2.countP (fun p => p.1 == n) = 1 ∧
      getKey db2 n = some { username := u, role := r, department := d } ∧
      (∀ k, ¬ k = n → getKey db2 k = getKey db k) := by
  have hnd1 := nodup_keys_setKey db n { username := u, role := r, department := d } hnd
  refine ⟨setKey db n { username := u, role := r, department := d }, confirm_msg u n r d,
    setKey (setKey db n { username := u, role := r, department := d }) n
      { username := u, role := r, department := d }, confirm_msg u n r d,
    by simp [create_employee_profile, read_employee_db, Except.map, h1],
    by simp [create_employee_profile, read_employee_db, Except.map, h2],
    countP_setKey _ n _ hnd1,
    getKey_setKey_self _ n _, ?_⟩
  intro k hk
  rw [getKey_setKey_ne _ n _ k hnd1 hk, getKey_setKey_ne db n _ k hnd hk]

/-- Witness for `create_profile_idempotent` on a concrete store. -/
theorem create_profile_idempotent_witness :
    ∃ db1 msg1 db2 msg2,
      create_employee_profile (FileContent.present "x" (some storeJane)) "bob" "Bob Smith"
        "Designer" "UX" = Except.ok (db1, msg1) ∧
      create_employee_profile (FileContent.present "y" (some db1)) "bob" "Bob Smith"
        "Designer" "UX" = Except.ok (db2, msg2) ∧
      db2.countP (fun p => p.1 == "Bob Smith") = 1 ∧
      getKey db2 "Bob Smith" =
        some { username := "bob", role := "Designer", department := "UX" } ∧
      (∀ k, ¬ k = "Bob Smith" → getKey db2 k = getKey storeJane k) :=
  create_profile_idempotent storeJane "x" "y" "bob" "Bob Smith" "Designer" "UX"
    (by decide) (by decide) (by decide)

/-- Claim C8: a missing knowledge directory (or one with no files) yields
an empty document set, the retrieval tool returns the fixed not-found
message on an empty result set rather than failing, and each returned
snippet is the source filename header followed by content truncated to
500 characters with an appended ellipsis (never exceeding 503
characters). -/
theorem retrieve_context_spec (mdFiles : List Doc) (d : Doc) :
    rag_documents false mdFiles [] = [] ∧
    rag_documents true [] [] = [] ∧
    retrieve_context [] = "No relevant information found in the knowledge base." ∧
    (d.page_content.length ≤ 500 →
      formatDoc d = "[From " ++ filenameOf d.source ++ "]\n" ++ d.page_content) ∧
    (500 < d.page_content.length →
      formatDoc d = "[From " ++ filenameOf d.source ++ "]\n" ++
        (String.mk (d.page_content.toList.take 500) ++ "...")) ∧
    (truncateContent d.page_content).length ≤ 503 := by
  refine ⟨by simp [rag_documents, load_markdown_documents],
    by simp [rag_documents, load_markdown_documents], rfl, ?_, ?_,
    truncateContent_length_le _⟩
  · intro hle
    have hng : ¬ d.page_content.length > 500 := by omega
    simp [formatDoc, truncateContent, hng]
  · intro hgt
    simp [formatDoc, truncateContent, hgt]

/-- Witness for `retrieve_context_spec` on a short concrete document. -/
theorem retrieve_context_spec_witness :
    formatDoc docEx = "[From " ++ filenameOf docEx.source ++ "]\n" ++ docEx.page_content :=
  (retrieve_context_spec [] docEx).2.2.2.1 (by decide)

end AgentExample
